import Mathlib

/-!
# Slack bot event dispatcher (`bot.go`)

A shallow embedding of `NewBotWithClient`, `Bot.HandleEvent`, its helpers and
`Bot.CleanupOldEvents`.

Modelling conventions.

* Go strings are modelled by `String` (sequences of Unicode code points). Event
  fields are produced by JSON decoding, which yields valid UTF-8, and on valid
  UTF-8 the byte-level substring operations of package `strings` coincide with
  the code-point-level ones used here.
* The two `map[string]bool` fields only ever receive the value `true`
  (`m[key] = true`), so a map is represented by its finite key set: the lookup
  `m[key]` is membership, the assignment is `insert`, `len(m)` is the
  cardinality and `make(map[string]bool)` is the empty set.
* The Slack client is a parameter: a function from the `PostMessage` call it
  receives to the error it returns (`none` is a nil error). `HandleEvent`
  returns, next to its error, the new bot state and the list of `PostMessage`
  calls it made, in order.
* Logging has no effect on the result and is left out.
* The functional model is sequential. What a call does to the mutex is recorded
  separately, as the trace of its lock, map and client steps (`HandleEventSteps`).
-/

namespace Slackbot

/-! ## Package `strings` and `fmt` -/

/-- The function `unicode.IsSpace`: the Latin-1 white space characters and the
code points with the Unicode White_Space property. -/
def isSpace (c : Char) : Bool :=
  let n := c.toNat
  n == 0x09 || n == 0x0A || n == 0x0B || n == 0x0C || n == 0x0D || n == 0x20 ||
  n == 0x85 || n == 0xA0 || n == 0x1680 || (0x2000 ≤ n && n ≤ 0x200A) ||
  n == 0x2028 || n == 0x2029 || n == 0x202F || n == 0x205F || n == 0x3000

/-- The function `strings.TrimSpace`: all leading and trailing white space
removed. -/
def TrimSpace (s : String) : String :=
  String.mk ((s.data.dropWhile isSpace).reverse.dropWhile isSpace).reverse

/-- Scan for `strings.Contains`: does `sub` occur at some position of the
remaining input. -/
def containsAux (sub : List Char) : List Char → Bool
  | [] => sub.isEmpty
  | c :: cs => sub.isPrefixOf (c :: cs) || containsAux sub cs

/-- The function `strings.Contains(s, substr)`. -/
def Contains (s substr : String) : Bool :=
  containsAux substr.data s.data

/-- Left-to-right scan of `strings.ReplaceAll` for a non-empty `old`: at each
position where `old` starts, `new` is emitted and the `old.length` characters
of the match are skipped (`skip` counts the characters of the current match
still to be dropped), so matches do not overlap. -/
def replaceAux (old new : List Char) : Nat → List Char → List Char
  | _, [] => []
  | skip + 1, _ :: cs => replaceAux old new skip cs
  | 0, c :: cs =>
    if old.isPrefixOf (c :: cs) then new ++ replaceAux old new (old.length - 1) cs
    else c :: replaceAux old new 0 cs

/-- The function `strings.ReplaceAll(s, old, new)`. An empty `old` matches at
the beginning of the string and after each code point. -/
def ReplaceAll (s old new : String) : String :=
  if old.data.isEmpty then String.mk (new.data ++ s.data.flatMap (fun c => c :: new.data))
  else String.mk (replaceAux old.data new.data 0 s.data)

/-- The key `fmt.Sprintf("%s-%s", a, b)` used for both maps. -/
def sprintfKey (a b : String) : String :=
  a ++ "-" ++ b

/-- The mention token `fmt.Sprintf("<@%s>", botUserID)`. -/
def mentionToken (botUserID : String) : String :=
  "<@" ++ botUserID ++ ">"

/-! ## Data model -/

/-- The fields of `slackevents.AppMentionEvent` read by the bot. -/
structure AppMentionEvent where
  User : String
  Text : String
  Channel : String
  TimeStamp : String
  deriving DecidableEq

/-- The fields of `slackevents.MessageEvent` read by the bot. -/
structure MessageEvent where
  User : String
  Text : String
  Channel : String
  TimeStamp : String
  ThreadTimeStamp : String
  deriving DecidableEq

/-- The dynamic type of `InnerEvent.Data`, as seen by the type switch in
`HandleEvent`: the two handled pointer types, or anything else (a nil interface
included). The event parser allocates the inner event before decoding into it,
so the two handled cases always carry a value. -/
inductive InnerData where
  | AppMention (ev : AppMentionEvent)
  | Message (ev : MessageEvent)
  | Other
  deriving DecidableEq

/-- The value `slackevents.EventsAPIEvent`: outer type tag and inner event. -/
structure EventsAPIEvent where
  EventType : String
  Data : InnerData
  deriving DecidableEq

/-- The constant `slackevents.CallbackEvent`. -/
def CallbackEvent : String := "event_callback"

/-- One recorded `PostMessage` call: channel, `MsgOptionText` and `MsgOptionTS`. -/
structure PostMessageCall where
  ChannelID : String
  Text : String
  TS : String
  deriving DecidableEq

/-- The `PostMessage` side of `SlackAPI`: the error returned for a call. -/
abbrev SlackAPI := PostMessageCall → Option String

/-- The state of a `Bot`. -/
structure Bot where
  botUserID : String
  activeThreads : Finset String
  processedEvents : Finset String
  deriving DecidableEq

/-- What one `HandleEvent` call does: the state it leaves, the `PostMessage`
calls it made and the error it returns. -/
structure Outcome where
  bot : Bot
  calls : List PostMessageCall
  err : Option String
  deriving DecidableEq

/-! ## Operations -/

/-- The method `Bot.isEventProcessed`. -/
def isEventProcessed (b : Bot) (channel timestamp : String) : Bool :=
  decide (sprintfKey channel timestamp ∈ b.processedEvents)

/-- The method `Bot.markEventProcessed`. -/
def markEventProcessed (b : Bot) (channel timestamp : String) : Bot :=
  { b with processedEvents := insert (sprintfKey channel timestamp) b.processedEvents }

/-- The method `Bot.processMessage`: `fmt.Sprintf("%s", message)`. -/
def processMessage (message : String) : String :=
  message

/-- The method `Bot.handleMention`. -/
def handleMention (b : Bot) (client : SlackAPI) (ev : AppMentionEvent) : Outcome :=
  let message := ReplaceAll ev.Text (mentionToken b.botUserID) ""
  let message := TrimSpace message
  let response := processMessage message
  let call : PostMessageCall := ⟨ev.Channel, response, ev.TimeStamp⟩
  match client call with
  | some e => ⟨b, [call], some ("failed to send message: " ++ e)⟩
  | none =>
    ⟨{ b with activeThreads := insert (sprintfKey ev.Channel ev.TimeStamp) b.activeThreads },
      [call], none⟩

/-- The method `Bot.handleThreadReply`. -/
def handleThreadReply (b : Bot) (client : SlackAPI) (ev : MessageEvent) : Outcome :=
  let response := processMessage ev.Text
  let call : PostMessageCall := ⟨ev.Channel, response, ev.ThreadTimeStamp⟩
  match client call with
  | some e => ⟨b, [call], some ("failed to send message: " ++ e)⟩
  | none =>
    ⟨{ b with activeThreads := insert (sprintfKey ev.Channel ev.ThreadTimeStamp) b.activeThreads },
      [call], none⟩

/-- The method `Bot.HandleEvent`. -/
def HandleEvent (b : Bot) (client : SlackAPI) (event : EventsAPIEvent) : Outcome :=
  if event.EventType = CallbackEvent then
    match event.Data with
    | .AppMention ev =>
      if isEventProcessed b ev.Channel ev.TimeStamp then ⟨b, [], none⟩
      else handleMention (markEventProcessed b ev.Channel ev.TimeStamp) client ev
    | .Message ev =>
      if ev.ThreadTimeStamp ≠ "" ∧ ev.User ≠ b.botUserID then
        if isEventProcessed b ev.Channel ev.TimeStamp then ⟨b, [], none⟩
        else
          let threadKey := sprintfKey ev.Channel ev.ThreadTimeStamp
          let isBotMentioned := Contains ev.Text (mentionToken b.botUserID)
          if threadKey ∈ b.activeThreads ∨ isBotMentioned = true then
            handleThreadReply (markEventProcessed b ev.Channel ev.TimeStamp) client ev
          else ⟨b, [], none⟩
      else if ev.User ≠ b.botUserID ∧ Contains ev.Text (mentionToken b.botUserID) = true then
        if isEventProcessed b ev.Channel ev.TimeStamp then ⟨b, [], none⟩
        else
          handleMention (markEventProcessed b ev.Channel ev.TimeStamp) client
            ⟨ev.User, ev.Text, ev.Channel, ev.TimeStamp⟩
      else ⟨b, [], none⟩
    | .Other => ⟨b, [], none⟩
  else ⟨b, [], none⟩

/-- The method `Bot.CleanupOldEvents`. -/
def CleanupOldEvents (b : Bot) : Bot :=
  if b.processedEvents.card > 1000 then { b with processedEvents := ∅ } else b

/-- The channel and timestamp of the message an event carries, when the event
is of one of the two handled kinds. -/
def channelTimeStamp : InnerData → Option (String × String)
  | .AppMention ev => some (ev.Channel, ev.TimeStamp)
  | .Message ev => some (ev.Channel, ev.TimeStamp)
  | .Other => none

/-- A client whose `PostMessage` always succeeds (the default mock). -/
def okClient : SlackAPI := fun _ => none

/-- A client whose `PostMessage` always fails. -/
def failingClient : SlackAPI := fun _ => some "channel_not_found"

/-- The bot built by `NewBotWithClient` over the mock client of the test suite. -/
def mockBot : Bot := ⟨"mock-bot-id", ∅, ∅⟩

/-- The event of `TestBotHandleMention`. -/
def testMention : AppMentionEvent :=
  ⟨"test-user", "<@mock-bot-id> hello bot", "test-channel", "1234567890.123456"⟩

/-- A ledger holding the 1001 keys `""`, `"x"`, `"xx"`, ... -/
def fullLedger : Finset String :=
  (Finset.range 1001).image (fun n => String.mk (List.replicate n 'x'))

/-- The field of `slack.AuthTestResponse` read by `NewBotWithClient`. -/
structure AuthTestResponse where
  UserID : String
  deriving DecidableEq

/-- The function `NewBotWithClient`, over what the client's `AuthTest` returned:
an error, or a response. -/
def NewBotWithClient (authTest : Except String AuthTestResponse) : Except String Bot :=
  match authTest with
  | .error err => .error ("failed to authenticate with Slack: " ++ err)
  | .ok resp => .ok ⟨resp.UserID, ∅, ∅⟩

/-- A run of `HandleEvent` calls, each with its own client behaviour and event,
with no `CleanupOldEvents` call in between. -/
def runEvents (b : Bot) : List (SlackAPI × EventsAPIEvent) → Bot
  | [] => b
  | (client, event) :: rest => runEvents (HandleEvent b client event).bot rest

/-- A run in which `CleanupOldEvents` is called after each `HandleEvent` call. -/
def runWithCleanup (b : Bot) : List (SlackAPI × EventsAPIEvent) → Bot
  | [] => b
  | (client, event) :: rest =>
    runWithCleanup (CleanupOldEvents (HandleEvent b client event).bot) rest

/-! ## Angle brackets of a message text -/

/-- Does the text never open a `<` while an earlier `<` is still waiting for its
`>` (`opened` says whether one is waiting at the start). -/
def anglesFlat : Bool → List Char → Bool
  | _, [] => true
  | opened, c :: cs =>
    if c = '<' then !opened && anglesFlat true cs
    else if c = '>' then anglesFlat false cs
    else anglesFlat opened cs

/-! ## Lock discipline

The same control flow as `HandleEvent`, recording instead of the result the
steps that touch the mutex, the two maps and the client, in program order. -/

/-- A step of a `HandleEvent` call that matters for the locking discipline. -/
inductive Step where
  /-- The call `b.processedEventsMutex.Lock()`. -/
  | lock
  /-- The deferred `b.processedEventsMutex.Unlock()`. -/
  | unlock
  /-- The read `b.processedEvents[key]`. -/
  | readLedger
  /-- The write `b.processedEvents[key] = true`. -/
  | writeLedger
  /-- The read `b.activeThreads[threadKey]`. -/
  | readRegistry
  /-- The write `b.activeThreads[threadKey] = true`. -/
  | writeRegistry
  /-- The call `b.client.PostMessage(...)`. -/
  | post
  deriving DecidableEq

/-- The steps of `Bot.isEventProcessed`. -/
def isEventProcessedSteps : List Step :=
  [.lock, .readLedger, .unlock]

/-- The steps of `Bot.markEventProcessed`. -/
def markEventProcessedSteps : List Step :=
  [.lock, .writeLedger, .unlock]

/-- The steps of `Bot.handleMention`: the send, then on success the registry
write. -/
def handleMentionSteps (b : Bot) (client : SlackAPI) (ev : AppMentionEvent) : List Step :=
  let message := ReplaceAll ev.Text (mentionToken b.botUserID) ""
  let message := TrimSpace message
  let response := processMessage message
  match client ⟨ev.Channel, response, ev.TimeStamp⟩ with
  | some _ => [.post]
  | none => [.post, .writeRegistry]

/-- The steps of `Bot.handleThreadReply`: the send, then on success the registry
write. -/
def handleThreadReplySteps (_b : Bot) (client : SlackAPI) (ev : MessageEvent) : List Step :=
  let response := processMessage ev.Text
  match client ⟨ev.Channel, response, ev.ThreadTimeStamp⟩ with
  | some _ => [.post]
  | none => [.post, .writeRegistry]

/-- The steps of `Bot.HandleEvent`. -/
def HandleEventSteps (b : Bot) (client : SlackAPI) (event : EventsAPIEvent) : List Step :=
  if event.EventType = CallbackEvent then
    match event.Data with
    | .AppMention ev =>
      isEventProcessedSteps ++
        (if isEventProcessed b ev.Channel ev.TimeStamp then []
        else markEventProcessedSteps ++
          handleMentionSteps (markEventProcessed b ev.Channel ev.TimeStamp) client ev)
    | .Message ev =>
      if ev.ThreadTimeStamp ≠ "" ∧ ev.User ≠ b.botUserID then
        isEventProcessedSteps ++
          (if isEventProcessed b ev.Channel ev.TimeStamp then []
          else
            Step.readRegistry ::
              (if sprintfKey ev.Channel ev.ThreadTimeStamp ∈ b.activeThreads ∨
                  Contains ev.Text (mentionToken b.botUserID) = true then
                markEventProcessedSteps ++
                  handleThreadReplySteps (markEventProcessed b ev.Channel ev.TimeStamp) client ev
              else []))
      else if ev.User ≠ b.botUserID ∧ Contains ev.Text (mentionToken b.botUserID) = true then
        isEventProcessedSteps ++
          (if isEventProcessed b ev.Channel ev.TimeStamp then []
          else markEventProcessedSteps ++
            handleMentionSteps (markEventProcessed b ev.Channel ev.TimeStamp) client
              ⟨ev.User, ev.Text, ev.Channel, ev.TimeStamp⟩)
      else []
    | .Other => []
  else []

/-- Is every ledger access of the trace made while the mutex is held (`held`
says whether it is held at the start). -/
def ledgerGuarded (held : Bool) : List Step → Bool
  | [] => true
  | .lock :: rest => ledgerGuarded true rest
  | .unlock :: rest => ledgerGuarded false rest
  | .readLedger :: rest => held && ledgerGuarded held rest
  | .writeLedger :: rest => held && ledgerGuarded held rest
  | _ :: rest => ledgerGuarded held rest

/-- Is every registry access of the trace made while a mutex is held. -/
def registryGuarded (held : Bool) : List Step → Bool
  | [] => true
  | .lock :: rest => registryGuarded true rest
  | .unlock :: rest => registryGuarded false rest
  | .readRegistry :: rest => held && registryGuarded held rest
  | .writeRegistry :: rest => held && registryGuarded held rest
  | _ :: rest => registryGuarded held rest

/-- Is every `PostMessage` call of the trace made while no mutex is held. -/
def postUnlocked (held : Bool) : List Step → Bool
  | [] => true
  | .lock :: rest => postUnlocked true rest
  | .unlock :: rest => postUnlocked false rest
  | .post :: rest => !held && postUnlocked held rest
  | _ :: rest => postUnlocked held rest

/-! ## Basic facts about the handlers -/

theorem handleMention_calls (b : Bot) (client : SlackAPI) (ev : AppMentionEvent) :
    (handleMention b client ev).calls =
      [⟨ev.Channel, TrimSpace (ReplaceAll ev.Text (mentionToken b.botUserID) ""),
        ev.TimeStamp⟩] := by
  simp only [handleMention, processMessage]
  split <;> rfl

theorem handleMention_err (b : Bot) (client : SlackAPI) (ev : AppMentionEvent) :
    (handleMention b client ev).err =
      (client ⟨ev.Channel, TrimSpace (ReplaceAll ev.Text (mentionToken b.botUserID) ""),
        ev.TimeStamp⟩).map (fun e => "failed to send message: " ++ e) := by
  simp only [handleMention, processMessage]
  cases client _ <;> rfl

theorem handleMention_processedEvents (b : Bot) (client : SlackAPI) (ev : AppMentionEvent) :
    (handleMention b client ev).bot.processedEvents = b.processedEvents := by
  simp only [handleMention, processMessage]
  split <;> rfl

theorem handleMention_botUserID (b : Bot) (client : SlackAPI) (ev : AppMentionEvent) :
    (handleMention b client ev).bot.botUserID = b.botUserID := by
  simp only [handleMention, processMessage]
  split <;> rfl

theorem handleMention_activeThreads_ok (b : Bot) (client : SlackAPI) (ev : AppMentionEvent)
    (h : (handleMention b client ev).err = none) :
    (handleMention b client ev).bot.activeThreads
      = insert (sprintfKey ev.Channel ev.TimeStamp) b.activeThreads := by
  revert h
  simp only [handleMention, processMessage]
  split <;> simp

theorem handleMention_activeThreads_err (b : Bot) (client : SlackAPI) (ev : AppMentionEvent)
    (h : (handleMention b client ev).err ≠ none) :
    (handleMention b client ev).bot.activeThreads = b.activeThreads := by
  revert h
  simp only [handleMention, processMessage]
  split <;> simp

theorem handleThreadReply_calls (b : Bot) (client : SlackAPI) (ev : MessageEvent) :
    (handleThreadReply b client ev).calls = [⟨ev.Channel, ev.Text, ev.ThreadTimeStamp⟩] := by
  simp only [handleThreadReply, processMessage]
  split <;> rfl

theorem handleThreadReply_err (b : Bot) (client : SlackAPI) (ev : MessageEvent) :
    (handleThreadReply b client ev).err =
      (client ⟨ev.Channel, ev.Text, ev.ThreadTimeStamp⟩).map
        (fun e => "failed to send message: " ++ e) := by
  simp only [handleThreadReply, processMessage]
  cases client _ <;> rfl

theorem handleThreadReply_processedEvents (b : Bot) (client : SlackAPI) (ev : MessageEvent) :
    (handleThreadReply b client ev).bot.processedEvents = b.processedEvents := by
  simp only [handleThreadReply, processMessage]
  split <;> rfl

theorem handleThreadReply_botUserID (b : Bot) (client : SlackAPI) (ev : MessageEvent) :
    (handleThreadReply b client ev).bot.botUserID = b.botUserID := by
  simp only [handleThreadReply, processMessage]
  split <;> rfl

theorem handleThreadReply_activeThreads_ok (b : Bot) (client : SlackAPI) (ev : MessageEvent)
    (h : (handleThreadReply b client ev).err = none) :
    (handleThreadReply b client ev).bot.activeThreads
      = insert (sprintfKey ev.Channel ev.ThreadTimeStamp) b.activeThreads := by
  revert h
  simp only [handleThreadReply, processMessage]
  split <;> simp

theorem handleThreadReply_activeThreads_err (b : Bot) (client : SlackAPI) (ev : MessageEvent)
    (h : (handleThreadReply b client ev).err ≠ none) :
    (handleThreadReply b client ev).bot.activeThreads = b.activeThreads := by
  revert h
  simp only [handleThreadReply, processMessage]
  split <;> simp

/-- The three shapes a `HandleEvent` call can take: nothing happens, the event
is marked and handled as a mention, or it is marked and handled as a thread
reply. -/
theorem HandleEvent_cases (b : Bot) (client : SlackAPI) (event : EventsAPIEvent) :
    HandleEvent b client event = ⟨b, [], none⟩ ∨
    (∃ ev : AppMentionEvent,
      channelTimeStamp event.Data = some (ev.Channel, ev.TimeStamp) ∧
      sprintfKey ev.Channel ev.TimeStamp ∉ b.processedEvents ∧
      HandleEvent b client event =
        handleMention (markEventProcessed b ev.Channel ev.TimeStamp) client ev) ∨
    (∃ ev : MessageEvent,
      channelTimeStamp event.Data = some (ev.Channel, ev.TimeStamp) ∧
      sprintfKey ev.Channel ev.TimeStamp ∉ b.processedEvents ∧
      HandleEvent b client event =
        handleThreadReply (markEventProcessed b ev.Channel ev.TimeStamp) client ev) := by
  obtain ⟨ty, data⟩ := event
  cases data with
  | Other => left; simp [HandleEvent]
  | AppMention ev =>
    by_cases hty : ty = CallbackEvent
    · by_cases hp : sprintfKey ev.Channel ev.TimeStamp ∈ b.processedEvents
      · left; simp [HandleEvent, hty, isEventProcessed, hp]
      · right; left
        exact ⟨ev, rfl, hp, by simp [HandleEvent, hty, isEventProcessed, hp]⟩
    · left; simp [HandleEvent, hty]
  | Message ev =>
    by_cases hty : ty = CallbackEvent
    · by_cases hp : sprintfKey ev.Channel ev.TimeStamp ∈ b.processedEvents
      · left
        simp [HandleEvent, hty, isEventProcessed, hp]
      · simp only [HandleEvent, hty, isEventProcessed, hp, ↓reduceIte, decide_False,
          Bool.false_eq_true]
        split_ifs
        · right; right; exact ⟨ev, rfl, hp, rfl⟩
        · left; rfl
        · right; left; exact ⟨⟨ev.User, ev.Text, ev.Channel, ev.TimeStamp⟩, rfl, hp, rfl⟩
        · left; rfl
    · left; simp [HandleEvent, hty]

/-- An event whose key is already in the ledger is dropped without any effect. -/
theorem HandleEvent_of_processed (b : Bot) (client : SlackAPI) (event : EventsAPIEvent)
    (c t : String) (hk : channelTimeStamp event.Data = some (c, t))
    (hp : sprintfKey c t ∈ b.processedEvents) :
    HandleEvent b client event = ⟨b, [], none⟩ := by
  rcases HandleEvent_cases b client event with h | ⟨ev, hk', hn, -⟩ | ⟨ev, hk', hn, -⟩
  · exact h
  · rw [hk] at hk'; cases hk'; exact absurd hp hn
  · rw [hk] at hk'; cases hk'; exact absurd hp hn

/-- A `HandleEvent` call that makes a `PostMessage` call has marked the event. -/
theorem HandleEvent_marks (b : Bot) (client : SlackAPI) (event : EventsAPIEvent)
    (hq : (HandleEvent b client event).calls ≠ []) :
    ∃ c t, channelTimeStamp event.Data = some (c, t) ∧
      (HandleEvent b client event).bot.processedEvents
        = insert (sprintfKey c t) b.processedEvents := by
  rcases HandleEvent_cases b client event with h | ⟨ev, hk, -, h⟩ | ⟨ev, hk, -, h⟩
  · rw [h] at hq; exact absurd rfl hq
  · exact ⟨_, _, hk, by rw [h, handleMention_processedEvents]; rfl⟩
  · exact ⟨_, _, hk, by rw [h, handleThreadReply_processedEvents]; rfl⟩

/-- The bot's identity never changes. -/
theorem HandleEvent_botUserID (b : Bot) (client : SlackAPI) (event : EventsAPIEvent) :
    (HandleEvent b client event).bot.botUserID = b.botUserID := by
  rcases HandleEvent_cases b client event with h | ⟨ev, -, -, h⟩ | ⟨ev, -, -, h⟩
  · rw [h]
  · rw [h, handleMention_botUserID]; rfl
  · rw [h, handleThreadReply_botUserID]; rfl

/-- On the message path the bot ignores what it wrote itself. -/
theorem HandleEvent_own_message (b : Bot) (client : SlackAPI) (ev : MessageEvent)
    (ty : String) (hOwn : ev.User = b.botUserID) :
    HandleEvent b client ⟨ty, .Message ev⟩ = ⟨b, [], none⟩ := by
  simp [HandleEvent, hOwn]

/-- At most one `PostMessage` call is made, and the error returned is the
client's error for that call, wrapped. -/
theorem HandleEvent_err (b : Bot) (client : SlackAPI) (event : EventsAPIEvent) :
    ((HandleEvent b client event).calls = [] ∧ (HandleEvent b client event).err = none) ∨
    ∃ c, (HandleEvent b client event).calls = [c] ∧
      (HandleEvent b client event).err
        = (client c).map (fun e => "failed to send message: " ++ e) := by
  rcases HandleEvent_cases b client event with h | ⟨ev, -, -, h⟩ | ⟨ev, -, -, h⟩
  · left; rw [h]; exact ⟨rfl, rfl⟩
  · right; rw [h]; exact ⟨_, handleMention_calls _ _ _, handleMention_err _ _ _⟩
  · right; rw [h]; exact ⟨_, handleThreadReply_calls _ _ _, handleThreadReply_err _ _ _⟩

/-- A failed send leaves the registry as it was. -/
theorem HandleEvent_activeThreads_of_err (b : Bot) (client : SlackAPI) (event : EventsAPIEvent)
    (he : (HandleEvent b client event).err ≠ none) :
    (HandleEvent b client event).bot.activeThreads = b.activeThreads := by
  rcases HandleEvent_cases b client event with h | ⟨ev, -, -, h⟩ | ⟨ev, -, -, h⟩
  · rw [h]
  · rw [h] at he ⊢; rw [handleMention_activeThreads_err _ _ _ he]; rfl
  · rw [h] at he ⊢; rw [handleThreadReply_activeThreads_err _ _ _ he]; rfl

/-- A message outside any thread that does not contain the mention token is
dropped without any effect. -/
theorem HandleEvent_threadless_no_mention (b : Bot) (client : SlackAPI) (msg : MessageEvent)
    (hNoThread : msg.ThreadTimeStamp = "")
    (hNoMention : Contains msg.Text (mentionToken b.botUserID) = false) :
    HandleEvent b client ⟨CallbackEvent, .Message msg⟩ = ⟨b, [], none⟩ := by
  simp [HandleEvent, hNoThread, hNoMention]

theorem fullLedger_card : fullLedger.card = 1001 := by
  unfold fullLedger
  rw [Finset.card_image_of_injective, Finset.card_range]
  intro m n h
  have h' := congrArg (fun s : String => s.data.length) h
  simpa using h'

/-- A `HandleEvent` call never removes a thread key. -/
theorem HandleEvent_activeThreads_subset (b : Bot) (client : SlackAPI)
    (event : EventsAPIEvent) :
    b.activeThreads ⊆ (HandleEvent b client event).bot.activeThreads := by
  by_cases he : (HandleEvent b client event).err = none
  · rcases HandleEvent_cases b client event with h | ⟨ev, -, -, h⟩ | ⟨ev, -, -, h⟩
    · rw [h]
    · rw [h] at he ⊢
      rw [handleMention_activeThreads_ok _ _ _ he]
      exact Finset.subset_insert _ _
    · rw [h] at he ⊢
      rw [handleThreadReply_activeThreads_ok _ _ _ he]
      exact Finset.subset_insert _ _
  · rw [HandleEvent_activeThreads_of_err b client event he]

/-- A `HandleEvent` call never removes a key from the ledger. -/
theorem HandleEvent_processedEvents_subset (b : Bot) (client : SlackAPI)
    (event : EventsAPIEvent) :
    b.processedEvents ⊆ (HandleEvent b client event).bot.processedEvents := by
  rcases HandleEvent_cases b client event with h | ⟨ev, -, -, h⟩ | ⟨ev, -, -, h⟩
  · rw [h]
  · rw [h, handleMention_processedEvents]
    exact Finset.subset_insert _ _
  · rw [h, handleThreadReply_processedEvents]
    exact Finset.subset_insert _ _

/-- A `HandleEvent` call adds at most one key to the ledger. -/
theorem HandleEvent_processedEvents_card (b : Bot) (client : SlackAPI)
    (event : EventsAPIEvent) :
    (HandleEvent b client event).bot.processedEvents.card ≤ b.processedEvents.card + 1 := by
  rcases HandleEvent_cases b client event with h | ⟨ev, -, -, h⟩ | ⟨ev, -, -, h⟩
  · rw [h]
    exact Nat.le_succ _
  · rw [h, handleMention_processedEvents]
    exact Finset.card_insert_le _ _
  · rw [h, handleThreadReply_processedEvents]
    exact Finset.card_insert_le _ _

/-- The ledger only grows along a run without cleanup. -/
theorem runEvents_processedEvents_subset (steps : List (SlackAPI × EventsAPIEvent)) :
    ∀ b : Bot, b.processedEvents ⊆ (runEvents b steps).processedEvents := by
  induction steps with
  | nil => intro b; exact Finset.Subset.refl _
  | cons s rest ih =>
    intro b
    obtain ⟨client, event⟩ := s
    exact (HandleEvent_processedEvents_subset b client event).trans (ih _)

/-- After `CleanupOldEvents` the ledger holds at most 1000 keys. -/
theorem CleanupOldEvents_card (b : Bot) : (CleanupOldEvents b).processedEvents.card ≤ 1000 := by
  unfold CleanupOldEvents
  split
  · simp
  · omega

/-- Along a run with cleanup after each event, the ledger stays within 1000 keys
after each cleanup. -/
theorem runWithCleanup_card (steps : List (SlackAPI × EventsAPIEvent)) :
    ∀ b : Bot, b.processedEvents.card ≤ 1000 →
      (runWithCleanup b steps).processedEvents.card ≤ 1000 := by
  induction steps with
  | nil => intro b hb; exact hb
  | cons s rest ih =>
    intro b _
    obtain ⟨client, event⟩ := s
    exact ih _ (CleanupOldEvents_card _)

/-! ## Keys -/

/-- Splitting a list at a separator is unique when the separator does not occur
before it. -/
theorem append_sep_inj {x : Char} :
    ∀ {a c b d : List Char}, x ∉ a → x ∉ c → a ++ x :: b = c ++ x :: d → a = c ∧ b = d := by
  intro a
  induction a with
  | nil =>
    intro c b d _ hc h
    cases c with
    | nil => simpa using h
    | cons y c₀ =>
      simp only [List.nil_append, List.cons_append, List.cons.injEq] at h
      exact absurd (h.1 ▸ List.mem_cons_self _ _) hc
  | cons y a₀ ih =>
    intro c b d ha hc h
    cases c with
    | nil =>
      simp only [List.nil_append, List.cons_append, List.cons.injEq] at h
      exact absurd (h.1 ▸ List.mem_cons_self _ _) ha
    | cons z c₀ =>
      simp only [List.cons_append, List.cons.injEq] at h
      obtain ⟨h1, h2⟩ := h
      have hrec := ih (fun hx => ha (List.mem_cons_of_mem _ hx))
        (fun hx => hc (List.mem_cons_of_mem _ hx)) h2
      exact ⟨by rw [h1, hrec.1], hrec.2⟩

/-- Splitting a list at a separator is unique when the separator does not occur
after it. -/
theorem append_sep_inj_right {x : Char} {a c b d : List Char} (hb : x ∉ b) (hd : x ∉ d)
    (h : a ++ x :: b = c ++ x :: d) : a = c ∧ b = d := by
  have hr : b.reverse ++ x :: a.reverse = d.reverse ++ x :: c.reverse := by
    have := congrArg List.reverse h
    simpa using this
  have hrec := append_sep_inj (by simpa using hb) (by simpa using hd) hr
  exact ⟨List.reverse_injective hrec.2, List.reverse_injective hrec.1⟩

theorem sprintfKey_data (a b : String) : (sprintfKey a b).data = a.data ++ '-' :: b.data := by
  simp [sprintfKey]

/-! ## Lock discipline of one call -/

/-- In every `HandleEvent` call the ledger is only touched with the mutex held,
and `PostMessage` is only called with the mutex released. -/
theorem HandleEventSteps_ledger_post (b : Bot) (client : SlackAPI) (event : EventsAPIEvent) :
    ledgerGuarded false (HandleEventSteps b client event) = true ∧
    postUnlocked false (HandleEventSteps b client event) = true := by
  simp only [HandleEventSteps, handleMentionSteps, handleThreadReplySteps, processMessage]
  repeat' split
  all_goals exact ⟨rfl, rfl⟩

/-- The trace has one `post` step per recorded `PostMessage` call. -/
theorem HandleEventSteps_count_post (b : Bot) (client : SlackAPI) (event : EventsAPIEvent) :
    (HandleEventSteps b client event).count Step.post
      = (HandleEvent b client event).calls.length := by
  simp only [HandleEventSteps, HandleEvent, handleMentionSteps, handleThreadReplySteps,
    processMessage]
  repeat' split
  all_goals
    first
    | rfl
    | simp [*, handleMention_calls, handleThreadReply_calls, isEventProcessedSteps,
        markEventProcessedSteps]

/-! ## Stripping the mention token -/

theorem replaceAux_skip (old new : List Char) :
    ∀ (k : Nat) (s : List Char), replaceAux old new k s = replaceAux old new 0 (s.drop k) := by
  intro k
  induction k with
  | zero => intro s; rfl
  | succ k ih =>
    intro s
    cases s with
    | nil => rfl
    | cons c cs => simp only [replaceAux, List.drop_succ_cons]; exact ih cs

theorem containsAux_iff_occurs (sub : List Char) :
    ∀ l : List Char, containsAux sub l = true ↔ sub <:+: l := by
  intro l
  induction l with
  | nil =>
    simp [containsAux, List.isEmpty_iff]
  | cons c cs ih =>
    simp only [containsAux, Bool.or_eq_true, ih, List.isPrefixOf_iff_prefix]
    rw [List.infix_cons_iff]

theorem anglesFlat_plain {w : List Char} (hw : ∀ x ∈ w, x ≠ '<' ∧ x ≠ '>') (o : Bool)
    (rest : List Char) : anglesFlat o (w ++ rest) = anglesFlat o rest := by
  induction w with
  | nil => rfl
  | cons x w ih =>
    have hx := hw x (List.mem_cons_self _ _)
    simp only [List.cons_append, anglesFlat, hx.1, hx.2, if_false]
    exact ih (fun y hy => hw y (List.mem_cons_of_mem _ hy))

theorem not_isPrefixOf_of_head_ne {t : List Char} {c : Char} (cs : List Char) (h : c ≠ '<') :
    ('<' :: t).isPrefixOf (c :: cs) = false := by
  simp [List.isPrefixOf, Ne.symm h]

/-- Inside an open bracket the scan copies the text up to and including the
closing `>`. -/
theorem replaceAux_prefix_closed (t : List Char) :
    ∀ (cs v : List Char), (∀ x ∈ v, x ≠ '<' ∧ x ≠ '>') → anglesFlat true cs = true →
      (v ++ ['>']) <+: replaceAux ('<' :: t) [] 0 cs → (v ++ ['>']) <+: cs := by
  intro cs
  induction cs with
  | nil =>
    intro v _ _ h
    simp [replaceAux] at h
  | cons c cs ih =>
    intro v hv hflat h
    have hc : c ≠ '<' := by
      intro hc
      simp [anglesFlat, hc] at hflat
    rw [replaceAux, not_isPrefixOf_of_head_ne cs hc] at h
    simp only [Bool.false_eq_true, if_false] at h
    cases v with
    | nil =>
      simp only [List.nil_append, List.cons_prefix_cons] at h
      simp only [List.nil_append, List.cons_prefix_cons]
      exact ⟨h.1, List.nil_prefix⟩
    | cons d v =>
      simp only [List.cons_append, List.cons_prefix_cons] at h
      have hd := hv d (List.mem_cons_self _ _)
      have hflat' : anglesFlat true cs = true := by
        have hc' : c ≠ '>' := by rw [← h.1]; exact hd.2
        simpa [anglesFlat, hc, hc'] using hflat
      have := ih v (fun y hy => hv y (List.mem_cons_of_mem _ hy)) hflat' h.2
      simp only [List.cons_append, List.cons_prefix_cons]
      exact ⟨h.1, this⟩

/-- On a text whose angle brackets are not nested, removing the occurrences of a
token `<w>` with no bracket inside `w` leaves no occurrence of the token. -/
theorem containsAux_replaceAux (w : List Char) (hw : ∀ x ∈ w, x ≠ '<' ∧ x ≠ '>') :
    ∀ (n : Nat) (s : List Char) (o : Bool), s.length ≤ n → anglesFlat o s = true →
      containsAux ('<' :: (w ++ ['>'])) (replaceAux ('<' :: (w ++ ['>'])) [] 0 s) = false := by
  intro n
  induction n with
  | zero =>
    intro s o hlen _
    have : s = [] := List.length_eq_zero.mp (Nat.le_zero.mp hlen)
    subst this
    simp [replaceAux, containsAux]
  | succ n ih =>
    intro s o hlen hflat
    cases s with
    | nil => simp [replaceAux, containsAux]
    | cons c cs =>
      have hlen' : cs.length ≤ n := by simpa using hlen
      rw [replaceAux]
      by_cases hm : ('<' :: (w ++ ['>'])).isPrefixOf (c :: cs) = true
      · rw [if_pos hm, List.nil_append, replaceAux_skip]
        obtain ⟨rest, hrest⟩ := List.isPrefixOf_iff_prefix.mp hm
        simp only [List.cons_append, List.cons.injEq] at hrest
        obtain ⟨hc, hcs⟩ := hrest
        subst hc
        have hdrop : cs.drop (('<' :: (w ++ ['>'])).length - 1) = rest := by
          rw [← hcs]
          simp
        rw [hdrop]
        have hflat' : anglesFlat false rest = true := by
          rw [← hcs] at hflat
          simp only [anglesFlat, if_true, Bool.and_eq_true, List.append_assoc] at hflat
          rw [anglesFlat_plain hw] at hflat
          simpa [anglesFlat] using hflat.2
        refine ih rest false ?_ hflat'
        have : rest.length ≤ cs.length := by
          rw [← hcs, List.length_append]
          exact Nat.le_add_left _ _
        omega
      · rw [if_neg hm]
        simp only [containsAux, Bool.or_eq_false_iff]
        constructor
        · by_contra hp
          simp only [Bool.not_eq_false] at hp
          apply hm
          have hp' := List.isPrefixOf_iff_prefix.mp hp
          simp only [List.cons_prefix_cons] at hp'
          obtain ⟨hc, hp''⟩ := hp'
          subst hc
          have hflat' : anglesFlat true cs = true := by
            simp only [anglesFlat, if_true, Bool.and_eq_true] at hflat
            exact hflat.2
          have := replaceAux_prefix_closed (w ++ ['>']) cs w hw hflat' hp''
          exact List.isPrefixOf_iff_prefix.mpr (by simpa [List.cons_prefix_cons] using this)
        · by_cases h1 : c = '<'
          · have hflat' : anglesFlat true cs = true := by
              simp only [anglesFlat, h1, if_true, Bool.and_eq_true] at hflat
              exact hflat.2
            exact ih cs true hlen' hflat'
          · by_cases h2 : c = '>'
            · have hflat' : anglesFlat false cs = true := by
                simpa [anglesFlat, h1, h2] using hflat
              exact ih cs false hlen' hflat'
            · have hflat' : anglesFlat o cs = true := by
                simpa [anglesFlat, h1, h2] using hflat
              exact ih cs o hlen' hflat'

theorem trim_occurs (l : List Char) :
    ((l.dropWhile isSpace).reverse.dropWhile isSpace).reverse <:+: l := by
  have h1 : (l.dropWhile isSpace) <:+ l := List.dropWhile_suffix _
  have h2 : ((l.dropWhile isSpace).reverse.dropWhile isSpace) <:+ (l.dropWhile isSpace).reverse :=
    List.dropWhile_suffix _
  have h3 : ((l.dropWhile isSpace).reverse.dropWhile isSpace).reverse <+: l.dropWhile isSpace := by
    have := List.reverse_prefix.mpr h2
    simpa using this
  exact h3.isInfix.trans h1.isInfix

theorem mentionToken_data (id : String) :
    (mentionToken id).data = '<' :: (('@' :: id.data) ++ ['>']) := by
  simp [mentionToken]

theorem stripped_has_no_token (id text : String)
    (hId : '<' ∉ id.data ∧ '>' ∉ id.data) (hText : anglesFlat false text.data = true) :
    Contains (TrimSpace (ReplaceAll text (mentionToken id) "")) (mentionToken id) = false := by
  have hw : ∀ x ∈ ('@' :: id.data), x ≠ '<' ∧ x ≠ '>' := by
    intro x hx
    rcases List.mem_cons.mp hx with h | h
    · subst h; exact ⟨by decide, by decide⟩
    · exact ⟨fun e => hId.1 (e ▸ h), fun e => hId.2 (e ▸ h)⟩
  have hmain := containsAux_replaceAux ('@' :: id.data) hw text.data.length text.data false
    (le_refl _) hText
  have hne : (mentionToken id).data.isEmpty = false := by
    rw [mentionToken_data]; rfl
  unfold Contains TrimSpace ReplaceAll
  rw [hne]
  simp only [Bool.false_eq_true, if_false]
  rw [mentionToken_data]
  by_contra hc
  have hc' : containsAux ('<' :: (('@' :: id.data) ++ ['>']))
      ((( replaceAux ('<' :: (('@' :: id.data) ++ ['>'])) ("" : String).data 0
        text.data).dropWhile isSpace).reverse.dropWhile isSpace).reverse = true := by
    simpa using hc
  have hinf := (containsAux_iff_occurs _ _).mp hc'
  have := (containsAux_iff_occurs _ _).mpr (hinf.trans (trim_occurs _))
  have hnil : ("" : String).data = [] := rfl
  rw [hnil] at this
  rw [hmain] at this
  exact absurd this (by decide)

/-! ## The claims -/

/-- C1 (fails on the mention path): an `AppMentionEvent` whose author is the bot
itself is not ignored; on a new bot with identity `B`, the mention
`{User: "B", Text: "<@B> ping", Channel: "C1", TimeStamp: "100.1"}` produces one
`PostMessage` call. -/
theorem C1_own_mention_is_answered :
    (HandleEvent ⟨"B", ∅, ∅⟩ okClient
        ⟨CallbackEvent, .AppMention ⟨"B", "<@B> ping", "C1", "100.1"⟩⟩).calls
      = [⟨"C1", "ping", "100.1"⟩] := by
  decide

/-- C2: when a delivery made a `PostMessage` call, a second delivery with the
same channel and timestamp, of any kind and with any text and any client
behaviour, makes no `PostMessage` call, returns nil and leaves the whole bot
state (ledger and registry) unchanged. -/
theorem C2_duplicate_delivery_suppressed (b : Bot) (client₁ client₂ : SlackAPI)
    (e₁ e₂ : EventsAPIEvent) (c t : String)
    (h₁ : channelTimeStamp e₁.Data = some (c, t))
    (h₂ : channelTimeStamp e₂.Data = some (c, t))
    (hq : (HandleEvent b client₁ e₁).calls ≠ []) :
    HandleEvent (HandleEvent b client₁ e₁).bot client₂ e₂
      = ⟨(HandleEvent b client₁ e₁).bot, [], none⟩ := by
  obtain ⟨c', t', hk, hm⟩ := HandleEvent_marks b client₁ e₁ hq
  rw [h₁] at hk
  cases hk
  exact HandleEvent_of_processed _ client₂ e₂ c t h₂ (by rw [hm]; exact Finset.mem_insert_self _ _)

/-- C2 at the replay of the test suite's mention: the second delivery of the
same event does nothing. -/
theorem C2_duplicate_delivery_suppressed_witness :
    (HandleEvent mockBot okClient ⟨CallbackEvent, .AppMention testMention⟩).calls ≠ [] ∧
    HandleEvent (HandleEvent mockBot okClient ⟨CallbackEvent, .AppMention testMention⟩).bot
        okClient ⟨CallbackEvent, .AppMention testMention⟩
      = ⟨(HandleEvent mockBot okClient ⟨CallbackEvent, .AppMention testMention⟩).bot,
          [], none⟩ :=
  ⟨by decide,
    C2_duplicate_delivery_suppressed mockBot okClient okClient
      ⟨CallbackEvent, .AppMention testMention⟩ ⟨CallbackEvent, .AppMention testMention⟩
      "test-channel" "1234567890.123456" rfl rfl (by decide)⟩

/-- C3: an `AppMentionEvent` from an author other than the bot whose key is not
yet in the ledger produces exactly one `PostMessage` call, to the event's
channel, anchored at the event's own timestamp, whose text is the event text
with the mention token replaced by the empty string and then trimmed; when the
client accepts that call, `HandleEvent` returns nil. -/
theorem C3_mention_posts_once (b : Bot) (client : SlackAPI) (ev : AppMentionEvent)
    (_hAuthor : ev.User ≠ b.botUserID)
    (hNew : sprintfKey ev.Channel ev.TimeStamp ∉ b.processedEvents) :
    (HandleEvent b client ⟨CallbackEvent, .AppMention ev⟩).calls
      = [⟨ev.Channel, TrimSpace (ReplaceAll ev.Text (mentionToken b.botUserID) ""),
          ev.TimeStamp⟩] ∧
    (client ⟨ev.Channel, TrimSpace (ReplaceAll ev.Text (mentionToken b.botUserID) ""),
        ev.TimeStamp⟩ = none →
      (HandleEvent b client ⟨CallbackEvent, .AppMention ev⟩).err = none) := by
  have h : HandleEvent b client ⟨CallbackEvent, .AppMention ev⟩
      = handleMention (markEventProcessed b ev.Channel ev.TimeStamp) client ev := by
    simp [HandleEvent, isEventProcessed, hNew]
  rw [h, handleMention_calls, handleMention_err]
  refine ⟨rfl, fun hok => ?_⟩
  have hok' : client ⟨ev.Channel,
      TrimSpace (ReplaceAll ev.Text (mentionToken (markEventProcessed b ev.Channel
        ev.TimeStamp).botUserID) ""), ev.TimeStamp⟩ = none := hok
  rw [hok']
  rfl

/-- C3 on the event of `TestBotHandleMention`: one call, to `test-channel`, with
text `hello bot`, and a nil error. -/
theorem C3_mention_posts_once_witness :
    testMention.User ≠ mockBot.botUserID ∧
    sprintfKey testMention.Channel testMention.TimeStamp ∉ mockBot.processedEvents ∧
    TrimSpace (ReplaceAll testMention.Text (mentionToken mockBot.botUserID) "") = "hello bot" ∧
    (HandleEvent mockBot okClient ⟨CallbackEvent, .AppMention testMention⟩).calls
      = [⟨"test-channel", "hello bot", "1234567890.123456"⟩] ∧
    (HandleEvent mockBot okClient ⟨CallbackEvent, .AppMention testMention⟩).err = none :=
  ⟨by decide, by decide, by decide,
    (C3_mention_posts_once mockBot okClient testMention (by decide) (by decide)).1,
    (C3_mention_posts_once mockBot okClient testMention (by decide) (by decide)).2 rfl⟩

/-- C4: after a mention on channel `C` with non-empty timestamp `T` has been
handled with a successful send, the thread key of `(C, T)` is active, and a
later message on `C` in the thread rooted at `T`, from another author, not yet
in the ledger and without a mention token, produces exactly one `PostMessage`
call, anchored at `T`. -/
theorem C4_mention_activates_thread (b : Bot) (client₁ client₂ : SlackAPI)
    (m : AppMentionEvent) (msg : MessageEvent)
    (hT : m.TimeStamp ≠ "")
    (hCall : (HandleEvent b client₁ ⟨CallbackEvent, .AppMention m⟩).calls ≠ [])
    (hOk : (HandleEvent b client₁ ⟨CallbackEvent, .AppMention m⟩).err = none)
    (hCh : msg.Channel = m.Channel) (hTh : msg.ThreadTimeStamp = m.TimeStamp)
    (hAuthor : msg.User ≠ b.botUserID)
    (hNew : sprintfKey msg.Channel msg.TimeStamp ∉
      (HandleEvent b client₁ ⟨CallbackEvent, .AppMention m⟩).bot.processedEvents)
    (_hNoMention : Contains msg.Text (mentionToken b.botUserID) = false) :
    sprintfKey m.Channel m.TimeStamp ∈
      (HandleEvent b client₁ ⟨CallbackEvent, .AppMention m⟩).bot.activeThreads ∧
    (HandleEvent (HandleEvent b client₁ ⟨CallbackEvent, .AppMention m⟩).bot client₂
        ⟨CallbackEvent, .Message msg⟩).calls = [⟨m.Channel, msg.Text, m.TimeStamp⟩] := by
  have hId := HandleEvent_botUserID b client₁ ⟨CallbackEvent, .AppMention m⟩
  have hAct : sprintfKey m.Channel m.TimeStamp ∈
      (HandleEvent b client₁ ⟨CallbackEvent, .AppMention m⟩).bot.activeThreads := by
    by_cases hp : sprintfKey m.Channel m.TimeStamp ∈ b.processedEvents
    · exfalso
      apply hCall
      rw [HandleEvent_of_processed b client₁ ⟨CallbackEvent, .AppMention m⟩ m.Channel m.TimeStamp
        rfl hp]
    · have h : HandleEvent b client₁ ⟨CallbackEvent, .AppMention m⟩
          = handleMention (markEventProcessed b m.Channel m.TimeStamp) client₁ m := by
        simp [HandleEvent, isEventProcessed, hp]
      rw [h] at hOk ⊢
      rw [handleMention_activeThreads_ok _ _ _ hOk]
      exact Finset.mem_insert_self _ _
  refine ⟨hAct, ?_⟩
  generalize HandleEvent b client₁ ⟨CallbackEvent, .AppMention m⟩ = r at hId hAct hNew
  have hTh' : msg.ThreadTimeStamp ≠ "" := by rw [hTh]; exact hT
  have hAuthor' : msg.User ≠ r.bot.botUserID := by rw [hId]; exact hAuthor
  have hAct' : sprintfKey msg.Channel msg.ThreadTimeStamp ∈ r.bot.activeThreads := by
    rw [hCh, hTh]; exact hAct
  have h : HandleEvent r.bot client₂ ⟨CallbackEvent, .Message msg⟩
      = handleThreadReply (markEventProcessed r.bot msg.Channel msg.TimeStamp) client₂ msg := by
    simp [HandleEvent, isEventProcessed, hNew, hTh', hAuthor', hAct']
  rw [h, handleThreadReply_calls, hCh, hTh]

/-- C4 on the scenario of the specification: mention on `("C1", "100.1")`, then
`ok continuing` in that thread. -/
theorem C4_mention_activates_thread_witness :
    sprintfKey "C1" "100.1" ∈
      (HandleEvent ⟨"BOT", ∅, ∅⟩ okClient
        ⟨CallbackEvent, .AppMention ⟨"U1", "<@BOT> hello", "C1", "100.1"⟩⟩).bot.activeThreads ∧
    (HandleEvent
        (HandleEvent ⟨"BOT", ∅, ∅⟩ okClient
          ⟨CallbackEvent, .AppMention ⟨"U1", "<@BOT> hello", "C1", "100.1"⟩⟩).bot
        okClient
        ⟨CallbackEvent, .Message ⟨"U1", "ok continuing", "C1", "100.2", "100.1"⟩⟩).calls
      = [⟨"C1", "ok continuing", "100.1"⟩] :=
  C4_mention_activates_thread ⟨"BOT", ∅, ∅⟩ okClient okClient
    ⟨"U1", "<@BOT> hello", "C1", "100.1"⟩ ⟨"U1", "ok continuing", "C1", "100.2", "100.1"⟩
    (by decide) (by decide) (by decide) rfl rfl (by decide) (by decide) (by decide)

/-- C5: for a message inside a thread, from another author and not yet in the
ledger, a `PostMessage` call is made exactly when the thread key is active or
the raw text contains the mention token; the call is then the only one, goes to
the event's channel, is anchored at the thread root and carries the event text
unchanged. -/
theorem C5_thread_reply_iff (b : Bot) (client : SlackAPI) (msg : MessageEvent)
    (hTh : msg.ThreadTimeStamp ≠ "") (hAuthor : msg.User ≠ b.botUserID)
    (hNew : sprintfKey msg.Channel msg.TimeStamp ∉ b.processedEvents) :
    ((HandleEvent b client ⟨CallbackEvent, .Message msg⟩).calls ≠ [] ↔
      (sprintfKey msg.Channel msg.ThreadTimeStamp ∈ b.activeThreads ∨
        Contains msg.Text (mentionToken b.botUserID) = true)) ∧
    ((HandleEvent b client ⟨CallbackEvent, .Message msg⟩).calls ≠ [] →
      (HandleEvent b client ⟨CallbackEvent, .Message msg⟩).calls
        = [⟨msg.Channel, msg.Text, msg.ThreadTimeStamp⟩]) := by
  by_cases hq : sprintfKey msg.Channel msg.ThreadTimeStamp ∈ b.activeThreads ∨
      Contains msg.Text (mentionToken b.botUserID) = true
  · have h : HandleEvent b client ⟨CallbackEvent, .Message msg⟩
        = handleThreadReply (markEventProcessed b msg.Channel msg.TimeStamp) client msg := by
      simp only [HandleEvent, isEventProcessed, hNew, ↓reduceIte, decide_False,
        Bool.false_eq_true]
      rw [if_pos ⟨hTh, hAuthor⟩, if_pos hq]
    rw [h, handleThreadReply_calls]
    exact ⟨⟨fun _ => hq, fun _ => by simp⟩, fun _ => rfl⟩
  · have h : HandleEvent b client ⟨CallbackEvent, .Message msg⟩ = ⟨b, [], none⟩ := by
      simp only [HandleEvent, isEventProcessed, hNew, ↓reduceIte, decide_False,
        Bool.false_eq_true]
      rw [if_pos ⟨hTh, hAuthor⟩, if_neg hq]
    rw [h]
    exact ⟨⟨fun hc => absurd rfl hc, fun hq' => absurd hq' hq⟩, fun hc => absurd rfl hc⟩

/-- C5 on a re-mention inside a thread the bot has not joined: one call,
anchored at the thread root, with the mention token still in the text. -/
theorem C5_thread_reply_iff_witness :
    (HandleEvent ⟨"BOT", ∅, ∅⟩ okClient
        ⟨CallbackEvent, .Message ⟨"U1", " <@BOT> again ", "C1", "100.3", "100.1"⟩⟩).calls
      = [⟨"C1", " <@BOT> again ", "100.1"⟩] :=
  (C5_thread_reply_iff ⟨"BOT", ∅, ∅⟩ okClient ⟨"U1", " <@BOT> again ", "C1", "100.3", "100.1"⟩
    (by decide) (by decide) (by decide)).2 (by decide)

/-- C6 (fails as stated): a message outside any thread whose text mentions the
bot is answered; on a new bot with identity `BOT` the thread-less message
`{User: "U1", Text: "<@BOT> hi", Channel: "C1", TimeStamp: "100.1"}` produces
one `PostMessage` call. -/
theorem C6_threadless_mention_is_answered :
    (⟨"U1", "<@BOT> hi", "C1", "100.1", ""⟩ : MessageEvent).ThreadTimeStamp = "" ∧
    (HandleEvent ⟨"BOT", ∅, ∅⟩ okClient
        ⟨CallbackEvent, .Message ⟨"U1", "<@BOT> hi", "C1", "100.1", ""⟩⟩).calls
      = [⟨"C1", "hi", "100.1"⟩] := by
  decide

/-- C6 (amended): for a message outside any thread, no `PostMessage` call is
made unless the author is not the bot, the text contains the mention token and
the key is not in the ledger; in that one case the message is handled as a
mention: exactly one call, to the event's channel, anchored at the message's own
timestamp, with the token replaced and the text trimmed. In particular a
thread-less message without the mention token is ignored. -/
theorem C6_threadless_message (b : Bot) (client : SlackAPI) (msg : MessageEvent)
    (hNoThread : msg.ThreadTimeStamp = "") :
    ((HandleEvent b client ⟨CallbackEvent, .Message msg⟩).calls ≠ [] ↔
      (msg.User ≠ b.botUserID ∧ Contains msg.Text (mentionToken b.botUserID) = true ∧
        sprintfKey msg.Channel msg.TimeStamp ∉ b.processedEvents)) ∧
    ((HandleEvent b client ⟨CallbackEvent, .Message msg⟩).calls ≠ [] →
      (HandleEvent b client ⟨CallbackEvent, .Message msg⟩).calls
        = [⟨msg.Channel, TrimSpace (ReplaceAll msg.Text (mentionToken b.botUserID) ""),
            msg.TimeStamp⟩]) ∧
    (Contains msg.Text (mentionToken b.botUserID) = false →
      HandleEvent b client ⟨CallbackEvent, .Message msg⟩ = ⟨b, [], none⟩) := by
  have h1 : ¬(msg.ThreadTimeStamp ≠ "" ∧ msg.User ≠ b.botUserID) := fun h => h.1 hNoThread
  by_cases hq : msg.User ≠ b.botUserID ∧ Contains msg.Text (mentionToken b.botUserID) = true
  · by_cases hp : sprintfKey msg.Channel msg.TimeStamp ∈ b.processedEvents
    · rw [HandleEvent_of_processed b client ⟨CallbackEvent, .Message msg⟩ msg.Channel
        msg.TimeStamp rfl hp]
      refine ⟨⟨fun hc => absurd rfl hc, fun h => absurd hp h.2.2⟩, fun hc => absurd rfl hc,
        fun _ => rfl⟩
    · have h : HandleEvent b client ⟨CallbackEvent, .Message msg⟩
          = handleMention (markEventProcessed b msg.Channel msg.TimeStamp) client
              ⟨msg.User, msg.Text, msg.Channel, msg.TimeStamp⟩ := by
        simp only [HandleEvent, isEventProcessed, hp, ↓reduceIte, decide_False,
          Bool.false_eq_true]
        rw [if_neg h1, if_pos hq]
      rw [h, handleMention_calls]
      refine ⟨⟨fun _ => ⟨hq.1, hq.2, hp⟩, fun _ => by simp⟩, fun _ => rfl, fun hn => ?_⟩
      rw [hq.2] at hn
      exact absurd hn (by decide)
  · have h : HandleEvent b client ⟨CallbackEvent, .Message msg⟩ = ⟨b, [], none⟩ := by
      simp only [HandleEvent, ↓reduceIte]
      rw [if_neg h1, if_neg hq]
    rw [h]
    exact ⟨⟨fun hc => absurd rfl hc, fun h => absurd ⟨h.1, h.2.1⟩ hq⟩, fun hc => absurd rfl hc,
      fun _ => rfl⟩

/-- C6 (amended) on a thread-less message without a mention token: no call is
made and nothing changes. -/
theorem C6_threadless_message_witness :
    HandleEvent ⟨"BOT", ∅, ∅⟩ okClient
        ⟨CallbackEvent, .Message ⟨"U1", "good morning", "C1", "100.5", ""⟩⟩
      = ⟨⟨"BOT", ∅, ∅⟩, [], none⟩ :=
  (C6_threadless_message ⟨"BOT", ∅, ∅⟩ okClient ⟨"U1", "good morning", "C1", "100.5", ""⟩
    rfl).2.2 (by decide)

/-- C7: whenever `HandleEvent` makes no `PostMessage` call, the ledger after the
call is the ledger before it (so its size does not grow); in particular a
message with no thread-root timestamp and no mention token produces no call and
leaves the ledger unchanged. -/
theorem C7_ignore_keeps_ledger (b : Bot) (client : SlackAPI) (event : EventsAPIEvent) :
    ((HandleEvent b client event).calls = [] →
      (HandleEvent b client event).bot.processedEvents = b.processedEvents ∧
      (HandleEvent b client event).bot.processedEvents.card ≤ b.processedEvents.card) ∧
    (∀ msg : MessageEvent, event.Data = .Message msg → msg.ThreadTimeStamp = "" →
      Contains msg.Text (mentionToken b.botUserID) = false →
      (HandleEvent b client event).calls = [] ∧
      (HandleEvent b client event).bot.processedEvents = b.processedEvents) := by
  have key : (HandleEvent b client event).calls = [] →
      (HandleEvent b client event).bot.processedEvents = b.processedEvents := by
    intro hc
    rcases HandleEvent_cases b client event with h | ⟨ev, -, -, h⟩ | ⟨ev, -, -, h⟩
    · rw [h]
    · rw [h, handleMention_calls] at hc; cases hc
    · rw [h, handleThreadReply_calls] at hc; cases hc
  refine ⟨fun hc => ⟨key hc, le_of_eq (congrArg Finset.card (key hc))⟩, ?_⟩
  intro msg hData hNoThread hNoMention
  have hc : (HandleEvent b client event).calls = [] := by
    obtain ⟨ty, data⟩ := event
    cases hData
    by_cases hty : ty = CallbackEvent
    · subst hty
      rw [HandleEvent_threadless_no_mention b client msg hNoThread hNoMention]
    · simp [HandleEvent, hty]
  exact ⟨hc, key hc⟩

/-- C7 on an ignored message and a ledger that already holds a key. -/
theorem C7_ignore_keeps_ledger_witness :
    (HandleEvent ⟨"BOT", ∅, {"C1-100.1"}⟩ okClient
        ⟨CallbackEvent, .Message ⟨"U1", "good morning", "C1", "100.5", ""⟩⟩).calls = [] ∧
    (HandleEvent ⟨"BOT", ∅, {"C1-100.1"}⟩ okClient
        ⟨CallbackEvent, .Message ⟨"U1", "good morning", "C1", "100.5", ""⟩⟩).bot.processedEvents
      = {"C1-100.1"} :=
  ⟨by decide,
    ((C7_ignore_keeps_ledger ⟨"BOT", ∅, {"C1-100.1"}⟩ okClient
      ⟨CallbackEvent, .Message ⟨"U1", "good morning", "C1", "100.5", ""⟩⟩).1 (by decide)).1⟩

/-- C8: `CleanupOldEvents` empties the ledger (size zero) when it held more
than 1000 keys, and changes nothing at all when it held 1000 keys or fewer. -/
theorem C8_cleanup_threshold (b : Bot) :
    (1000 < b.processedEvents.card →
      (CleanupOldEvents b).processedEvents = ∅ ∧
      (CleanupOldEvents b).processedEvents.card = 0) ∧
    (b.processedEvents.card ≤ 1000 → CleanupOldEvents b = b) := by
  constructor
  · intro h
    simp [CleanupOldEvents, h]
  · intro h
    simp [CleanupOldEvents, Nat.not_lt.mpr h]

/-- C8 on a ledger of 1001 keys (emptied) and on the empty ledger (kept). -/
theorem C8_cleanup_threshold_witness :
    (1000 < (⟨"BOT", ∅, fullLedger⟩ : Bot).processedEvents.card ∧
      (CleanupOldEvents ⟨"BOT", ∅, fullLedger⟩).processedEvents = ∅) ∧
    (mockBot.processedEvents.card ≤ 1000 ∧ CleanupOldEvents mockBot = mockBot) :=
  ⟨⟨by rw [fullLedger_card]; decide,
      ((C8_cleanup_threshold ⟨"BOT", ∅, fullLedger⟩).1 (by rw [fullLedger_card]; decide)).1⟩,
    ⟨by decide, (C8_cleanup_threshold mockBot).2 (by decide)⟩⟩

/-- C9: `HandleEvent` returns an error exactly when it made a `PostMessage` call
and the client failed that call; it never makes more than one call, and on every
other path (duplicate, ignored event, unknown shape, successful send) it returns
nil. -/
theorem C9_error_iff_send_failed (b : Bot) (client : SlackAPI) (event : EventsAPIEvent) :
    ((HandleEvent b client event).err ≠ none ↔
      ∃ c, (HandleEvent b client event).calls = [c] ∧ client c ≠ none) ∧
    (HandleEvent b client event).calls.length ≤ 1 := by
  rcases HandleEvent_err b client event with ⟨hc, he⟩ | ⟨c, hc, he⟩
  · rw [hc, he]
    refine ⟨⟨fun h => absurd rfl h, ?_⟩, Nat.zero_le _⟩
    rintro ⟨c, h, -⟩
    cases h
  · rw [hc, he]
    refine ⟨⟨fun h => ⟨c, rfl, ?_⟩, ?_⟩, le_refl _⟩
    · intro hn
      rw [hn] at h
      exact h rfl
    · rintro ⟨c', h, hf⟩
      cases h
      cases hcl : client c with
      | none => exact absurd hcl hf
      | some e => simp

/-- C10: when the `PostMessage` call made for an event fails, `HandleEvent`
returns an error, the event's key is in the ledger afterwards, the registry is
unchanged, and a redelivery of the same event makes no `PostMessage` call
whatever the client does. -/
theorem C10_failed_send_stays_marked (b : Bot) (client : SlackAPI) (event : EventsAPIEvent)
    (c : PostMessageCall)
    (hCall : (HandleEvent b client event).calls = [c]) (hFail : client c ≠ none) :
    (HandleEvent b client event).err ≠ none ∧
    (∃ ch ts, channelTimeStamp event.Data = some (ch, ts) ∧
      sprintfKey ch ts ∈ (HandleEvent b client event).bot.processedEvents) ∧
    (HandleEvent b client event).bot.activeThreads = b.activeThreads ∧
    ∀ client₂ : SlackAPI,
      (HandleEvent (HandleEvent b client event).bot client₂ event).calls = [] := by
  have hErr : (HandleEvent b client event).err ≠ none := by
    rcases HandleEvent_err b client event with ⟨hc, -⟩ | ⟨c', hc, he⟩
    · rw [hc] at hCall; cases hCall
    · rw [hc] at hCall
      cases hCall
      rw [he]
      cases hcl : client c with
      | none => exact absurd hcl hFail
      | some e => simp
  have hne : (HandleEvent b client event).calls ≠ [] := by rw [hCall]; simp
  obtain ⟨ch, ts, hk, hm⟩ := HandleEvent_marks b client event hne
  have hin : sprintfKey ch ts ∈ (HandleEvent b client event).bot.processedEvents := by
    rw [hm]; exact Finset.mem_insert_self _ _
  refine ⟨hErr, ⟨ch, ts, hk, hin⟩, HandleEvent_activeThreads_of_err b client event hErr, ?_⟩
  intro client₂
  rw [HandleEvent_of_processed _ client₂ event ch ts hk hin]

/-- C10 on a mention whose send fails: the error is reported, the key
`test-channel-1234567890.123456` is in the ledger and the registry stays empty. -/
theorem C10_failed_send_stays_marked_witness :
    (HandleEvent mockBot failingClient ⟨CallbackEvent, .AppMention testMention⟩).err
      = some "failed to send message: channel_not_found" ∧
    "test-channel-1234567890.123456" ∈
      (HandleEvent mockBot failingClient
        ⟨CallbackEvent, .AppMention testMention⟩).bot.processedEvents ∧
    (HandleEvent mockBot failingClient
      ⟨CallbackEvent, .AppMention testMention⟩).bot.activeThreads = ∅ ∧
    (HandleEvent
      (HandleEvent mockBot failingClient ⟨CallbackEvent, .AppMention testMention⟩).bot
      okClient ⟨CallbackEvent, .AppMention testMention⟩).calls = [] :=
  ⟨by decide, by decide,
    (C10_failed_send_stays_marked mockBot failingClient
      ⟨CallbackEvent, .AppMention testMention⟩
      ⟨"test-channel", "hello bot", "1234567890.123456"⟩ (by decide) (by decide)).2.2.1,
    (C10_failed_send_stays_marked mockBot failingClient
      ⟨CallbackEvent, .AppMention testMention⟩
      ⟨"test-channel", "hello bot", "1234567890.123456"⟩ (by decide) (by decide)).2.2.2
      okClient⟩

/-- C11: an event whose outer type is not the callback type, or whose inner
data is neither an `AppMentionEvent` nor a `MessageEvent` (missing data
included), makes `HandleEvent` return nil with no `PostMessage` call and the
bot state (ledger and registry) unchanged. -/
theorem C11_unknown_shape_ignored (b : Bot) (client : SlackAPI) (event : EventsAPIEvent)
    (hShape : event.EventType ≠ CallbackEvent ∨ event.Data = .Other) :
    (HandleEvent b client event).err = none ∧
    (HandleEvent b client event).calls = [] ∧
    (HandleEvent b client event).bot.processedEvents = b.processedEvents ∧
    (HandleEvent b client event).bot.activeThreads = b.activeThreads := by
  have h : HandleEvent b client event = ⟨b, [], none⟩ := by
    rcases hShape with hty | hd
    · simp [HandleEvent, hty]
    · simp [HandleEvent, hd]
  rw [h]
  exact ⟨rfl, rfl, rfl, rfl⟩

/-- C11 on a URL verification event carrying a mention, and on a callback
without inner data. -/
theorem C11_unknown_shape_ignored_witness :
    HandleEvent ⟨"BOT", {"C1-100.1"}, {"C1-100.1"}⟩ failingClient
        ⟨"url_verification", .AppMention testMention⟩
      = ⟨⟨"BOT", {"C1-100.1"}, {"C1-100.1"}⟩, [], none⟩ ∧
    (HandleEvent mockBot failingClient ⟨CallbackEvent, .Other⟩).calls = [] :=
  ⟨by decide,
    (C11_unknown_shape_ignored mockBot failingClient ⟨CallbackEvent, .Other⟩
      (Or.inr rfl)).2.1⟩

/-- C12: `NewBotWithClient` returns an error exactly when `AuthTest` returned
one; when `AuthTest` succeeds the bot it returns has the `UserID` of the
response as identity and an empty ledger and an empty registry. -/
theorem C12_construction (authTest : Except String AuthTestResponse) :
    ((∃ e, NewBotWithClient authTest = .error e) ↔ ∃ e, authTest = .error e) ∧
    (∀ resp, authTest = .ok resp →
      ∃ b, NewBotWithClient authTest = .ok b ∧ b.botUserID = resp.UserID ∧
        b.processedEvents = ∅ ∧ b.activeThreads = ∅) := by
  cases authTest with
  | error e =>
    refine ⟨⟨fun _ => ⟨e, rfl⟩, fun _ => ⟨_, rfl⟩⟩, ?_⟩
    intro resp h
    cases h
  | ok resp =>
    refine ⟨⟨?_, ?_⟩, ?_⟩
    · rintro ⟨e, h⟩
      cases h
    · rintro ⟨e, h⟩
      cases h
    · intro resp' h
      cases h
      exact ⟨_, rfl, rfl, rfl, rfl⟩

/-- C12 on the mock client of the test suite, whose `AuthTest` answers
`mock-bot-id`. -/
theorem C12_construction_witness :
    ∃ b, NewBotWithClient (.ok ⟨"mock-bot-id"⟩) = .ok b ∧ b.botUserID = "mock-bot-id" ∧
      b.processedEvents = ∅ ∧ b.activeThreads = ∅ :=
  (C12_construction (.ok ⟨"mock-bot-id"⟩)).2 ⟨"mock-bot-id"⟩ rfl

/-- C13: every thread key active before a `HandleEvent` call, whatever the
event and the client's answer, is still active after it, and
`CleanupOldEvents` leaves the registry exactly as it was. -/
theorem C13_registry_only_grows (b : Bot) (client : SlackAPI) (event : EventsAPIEvent) :
    b.activeThreads ⊆ (HandleEvent b client event).bot.activeThreads ∧
    (CleanupOldEvents b).activeThreads = b.activeThreads := by
  constructor
  · exact HandleEvent_activeThreads_subset b client event
  · unfold CleanupOldEvents
    split <;> rfl

/-- C14 (fails for the registry): the steps of a `HandleEvent` call for a new
mention are lock, ledger read, unlock, lock, ledger write, unlock, send,
registry write, and the steps for a message in a thread start with lock, ledger
read, unlock, registry read; the registry write and the registry read are made
with no mutex held. -/
theorem C14_registry_not_guarded :
    HandleEventSteps ⟨"BOT", ∅, ∅⟩ okClient
        ⟨CallbackEvent, .AppMention ⟨"U1", "<@BOT> hello", "C1", "100.1"⟩⟩
      = [.lock, .readLedger, .unlock, .lock, .writeLedger, .unlock, .post, .writeRegistry] ∧
    registryGuarded false
      (HandleEventSteps ⟨"BOT", ∅, ∅⟩ okClient
        ⟨CallbackEvent, .AppMention ⟨"U1", "<@BOT> hello", "C1", "100.1"⟩⟩) = false ∧
    HandleEventSteps ⟨"BOT", ∅, ∅⟩ okClient
        ⟨CallbackEvent, .Message ⟨"U2", "ok continuing", "C1", "100.2", "100.1"⟩⟩
      = [.lock, .readLedger, .unlock, .readRegistry] ∧
    registryGuarded false
      (HandleEventSteps ⟨"BOT", ∅, ∅⟩ okClient
        ⟨CallbackEvent, .Message ⟨"U2", "ok continuing", "C1", "100.2", "100.1"⟩⟩) = false := by
  decide

/-- C15: along every sequence of `HandleEvent` calls without a cleanup, every
key in the ledger at the start is still in it at the end; hence once an event
on `(c, t)` has been handled (a `PostMessage` call was made for it), a later
delivery of any event on the same `(c, t)`, after any such sequence of other
events, makes no `PostMessage` call. -/
theorem C15_ledger_monotone (b : Bot) (steps : List (SlackAPI × EventsAPIEvent)) :
    b.processedEvents ⊆ (runEvents b steps).processedEvents ∧
    ∀ (client client₂ : SlackAPI) (e e₂ : EventsAPIEvent) (c t : String),
      channelTimeStamp e.Data = some (c, t) → channelTimeStamp e₂.Data = some (c, t) →
      (HandleEvent b client e).calls ≠ [] →
      (HandleEvent (runEvents (HandleEvent b client e).bot steps) client₂ e₂).calls = [] := by
  refine ⟨runEvents_processedEvents_subset steps b, ?_⟩
  intro client client₂ e e₂ c t hk hk₂ hq
  obtain ⟨c', t', hk', hm⟩ := HandleEvent_marks b client e hq
  rw [hk] at hk'
  cases hk'
  have hin : sprintfKey c t ∈ (HandleEvent b client e).bot.processedEvents := by
    rw [hm]; exact Finset.mem_insert_self _ _
  rw [HandleEvent_of_processed _ client₂ e₂ c t hk₂
    (runEvents_processedEvents_subset steps _ hin)]

/-- C15 on the test suite's mention, redelivered after two other events. -/
theorem C15_ledger_monotone_witness :
    (HandleEvent
      (runEvents (HandleEvent mockBot okClient ⟨CallbackEvent, .AppMention testMention⟩).bot
        [(okClient, ⟨CallbackEvent, .AppMention ⟨"U1", "<@mock-bot-id> a", "C1", "100.1"⟩⟩),
         (failingClient, ⟨CallbackEvent, .Message ⟨"U1", "b", "C1", "100.2", "100.1"⟩⟩)])
      okClient ⟨CallbackEvent, .AppMention testMention⟩).calls = [] :=
  (C15_ledger_monotone mockBot
    [(okClient, ⟨CallbackEvent, .AppMention ⟨"U1", "<@mock-bot-id> a", "C1", "100.1"⟩⟩),
     (failingClient, ⟨CallbackEvent, .Message ⟨"U1", "b", "C1", "100.2", "100.1"⟩⟩)]).2
    okClient okClient ⟨CallbackEvent, .AppMention testMention⟩
    ⟨CallbackEvent, .AppMention testMention⟩ "test-channel" "1234567890.123456" rfl rfl
    (by decide)

/-- C16 (fails as stated): the pairs `("C1-100", "1")` and `("C1", "100-1")`
are different and have the same key `C1-100-1`; after a mention on the first
pair has been answered, a mention on the second one is dropped as a
duplicate. -/
theorem C16_key_collision :
    sprintfKey "C1-100" "1" = sprintfKey "C1" "100-1" ∧
    ("C1-100", "1") ≠ ("C1", "100-1") ∧
    (HandleEvent
      (HandleEvent ⟨"BOT", ∅, ∅⟩ okClient
        ⟨CallbackEvent, .AppMention ⟨"U1", "<@BOT> one", "C1-100", "1"⟩⟩).bot
      okClient ⟨CallbackEvent, .AppMention ⟨"U2", "<@BOT> two", "C1", "100-1"⟩⟩).calls = [] := by
  decide

/-- C16 (amended): when neither channel contains the separator `-`, or neither
timestamp does, equal keys come from equal (channel, timestamp) pairs. The
event key and the thread key are built by the same format, so this covers
both. -/
theorem C16_key_injective (c₁ t₁ c₂ t₂ : String)
    (hSep : ('-' ∉ c₁.data ∧ '-' ∉ c₂.data) ∨ ('-' ∉ t₁.data ∧ '-' ∉ t₂.data))
    (hKey : sprintfKey c₁ t₁ = sprintfKey c₂ t₂) :
    c₁ = c₂ ∧ t₁ = t₂ := by
  have hd : c₁.data ++ '-' :: t₁.data = c₂.data ++ '-' :: t₂.data := by
    rw [← sprintfKey_data, ← sprintfKey_data, hKey]
  have hsplit : c₁.data = c₂.data ∧ t₁.data = t₂.data := by
    rcases hSep with ⟨h1, h2⟩ | ⟨h1, h2⟩
    · exact append_sep_inj h1 h2 hd
    · exact append_sep_inj_right h1 h2 hd
  exact ⟨String.ext hsplit.1, String.ext hsplit.2⟩

/-- C16 (amended) on a Slack channel identifier and timestamp. -/
theorem C16_key_injective_witness :
    sprintfKey "C024BE91L" "1355517523.000005" = sprintfKey "C024BE91L" "1355517523.000005" ∧
    ("C024BE91L" : String) = "C024BE91L" ∧ ("1355517523.000005" : String) = "1355517523.000005" :=
  ⟨rfl, C16_key_injective "C024BE91L" "1355517523.000005" "C024BE91L" "1355517523.000005"
    (Or.inl ⟨by decide, by decide⟩) rfl⟩

/-- C17 (fails as stated): for the bot `B`, the mention text `<@<@B>B>` is
stripped to `<@B>`, which is the mention token itself: removing the inner
occurrence joins the text around it into a new one. -/
theorem C17_stripped_text_has_token :
    (HandleEvent ⟨"B", ∅, ∅⟩ okClient
        ⟨CallbackEvent, .AppMention ⟨"U1", "<@<@B>B>", "C1", "100.1"⟩⟩).calls
      = [⟨"C1", "<@B>", "100.1"⟩] ∧
    Contains "<@B>" (mentionToken "B") = true := by
  decide

/-- C17 (amended): when the bot identity contains neither `<` nor `>` and the
event text never opens a `<` while an earlier `<` is not yet closed by `>`, the
text passed to `PostMessage` by `handleMention`, and so by `HandleEvent` for a
mention, contains no occurrence of the mention token. -/
theorem C17_stripped_text_no_token (b : Bot) (client : SlackAPI) (ev : AppMentionEvent)
    (hId : '<' ∉ b.botUserID.data ∧ '>' ∉ b.botUserID.data)
    (hText : anglesFlat false ev.Text.data = true) :
    (∀ call ∈ (handleMention b client ev).calls,
      Contains call.Text (mentionToken b.botUserID) = false) ∧
    (∀ call ∈ (HandleEvent b client ⟨CallbackEvent, .AppMention ev⟩).calls,
      Contains call.Text (mentionToken b.botUserID) = false) := by
  have hstrip := stripped_has_no_token b.botUserID ev.Text hId hText
  constructor
  · intro call hcall
    rw [handleMention_calls, List.mem_singleton] at hcall
    rw [hcall]
    exact hstrip
  · intro call hcall
    by_cases hp : sprintfKey ev.Channel ev.TimeStamp ∈ b.processedEvents
    · have h0 : HandleEvent b client ⟨CallbackEvent, .AppMention ev⟩ = ⟨b, [], none⟩ := by
        simp [HandleEvent, isEventProcessed, hp]
      rw [h0] at hcall
      cases hcall
    · have h1 : HandleEvent b client ⟨CallbackEvent, .AppMention ev⟩
          = handleMention (markEventProcessed b ev.Channel ev.TimeStamp) client ev := by
        simp [HandleEvent, isEventProcessed, hp]
      rw [h1, handleMention_calls, List.mem_singleton] at hcall
      rw [hcall]
      exact hstrip

/-- C17 (amended) on the event of `TestBotHandleMention`: the text sent is
`hello bot`, without the token `<@mock-bot-id>`. -/
theorem C17_stripped_text_no_token_witness :
    (HandleEvent mockBot okClient ⟨CallbackEvent, .AppMention testMention⟩).calls
      = [⟨"test-channel", "hello bot", "1234567890.123456"⟩] ∧
    Contains "hello bot" (mentionToken "mock-bot-id") = false :=
  ⟨by decide,
    (C17_stripped_text_no_token mockBot okClient testMention ⟨by decide, by decide⟩
      (by decide)).2 ⟨"test-channel", "hello bot", "1234567890.123456"⟩ (by decide)⟩

/-- C18: a `HandleEvent` call adds at most one key to the ledger; and from a
newly constructed bot, in a run where `CleanupOldEvents` follows each
`HandleEvent` call, the ledger holds at most 1000 keys after each cleanup and
at most 1001 keys after each `HandleEvent` call. -/
theorem C18_ledger_bounded (authTest : Except String AuthTestResponse) (b : Bot)
    (hNew : NewBotWithClient authTest = .ok b)
    (steps : List (SlackAPI × EventsAPIEvent)) (client : SlackAPI) (event : EventsAPIEvent) :
    (∀ (b₀ : Bot) (client₀ : SlackAPI) (event₀ : EventsAPIEvent),
      (HandleEvent b₀ client₀ event₀).bot.processedEvents.card
        ≤ b₀.processedEvents.card + 1) ∧
    (runWithCleanup b steps).processedEvents.card ≤ 1000 ∧
    (HandleEvent (runWithCleanup b steps) client event).bot.processedEvents.card ≤ 1001 := by
  have hb : b.processedEvents.card ≤ 1000 := by
    cases authTest with
    | error e => cases hNew
    | ok resp =>
      simp only [NewBotWithClient, Except.ok.injEq] at hNew
      subst hNew
      simp
  have hrun := runWithCleanup_card steps b hb
  refine ⟨HandleEvent_processedEvents_card, hrun, ?_⟩
  have h := HandleEvent_processedEvents_card (runWithCleanup b steps) client event
  omega

/-- C18 on the bot of the test suite after one handled mention and its cleanup. -/
theorem C18_ledger_bounded_witness :
    (runWithCleanup mockBot
      [(okClient, ⟨CallbackEvent, .AppMention testMention⟩)]).processedEvents.card ≤ 1000 ∧
    (HandleEvent
      (runWithCleanup mockBot [(okClient, ⟨CallbackEvent, .AppMention testMention⟩)])
      okClient ⟨CallbackEvent, .Message ⟨"U1", "more", "test-channel", "2.0",
        "1234567890.123456"⟩⟩).bot.processedEvents.card ≤ 1001 :=
  (C18_ledger_bounded (.ok ⟨"mock-bot-id"⟩) mockBot rfl
    [(okClient, ⟨CallbackEvent, .AppMention testMention⟩)] okClient
    ⟨CallbackEvent, .Message ⟨"U1", "more", "test-channel", "2.0",
      "1234567890.123456"⟩⟩).2

end Slackbot
